import Mathlib

/-!
Verification of the eBUS adapter PIC firmware loader (src/src/tools/ebuspicloader.cpp).

The development shallowly embeds the frame codec, the protocol engine
(sendReceiveFrame, with the byte transport abstracted as an oracle of
poll/read/write outcomes), the command set (eraseFlash, writeFlash,
writeConfig) and the programming sequencer (flashPic) as executable Lean
functions over Nat, Int and List Nat.  Machine integers are modelled as
Nat with explicit reductions modulo 256 and 65536 where the C code
truncates.  Theorems about the claims of the specification follow the
definitions.
-/

/-! ## Constants from the source -/

def WRITE_FLASH_BLOCKSIZE : Nat := 32

def ERASE_FLASH_BLOCKSIZE : Nat := 32

def END_FLASH : Nat := 0x4000

def FRAME_HEADER_LEN : Nat := 9

def FRAME_MAX_LEN : Nat := FRAME_HEADER_LEN + 2 * WRITE_FLASH_BLOCKSIZE

def STX : Nat := 0x55

def READ_VERSION : Nat := 0

def READ_FLASH : Nat := 1

def WRITE_FLASH : Nat := 2

def ERASE_FLASH : Nat := 3

def READ_EE_DATA : Nat := 4

def WRITE_EE_DATA : Nat := 5

def READ_CONFIG : Nat := 6

def WRITE_CONFIG : Nat := 7

def CALC_CHECKSUM : Nat := 8

def RESET_DEVICE : Nat := 9

def CALC_CRC : Nat := 10

def COMMAND_SUCCESS : Nat := 0x01

/-- Size of flash in bytes: END_FLASH * 2. -/
def END_FLASH_BYTES : Nat := END_FLASH * 2

/-- Size of boot block in words. -/
def END_BOOT : Nat := 0x0400

/-- Size of boot block in bytes: END_BOOT * 2. -/
def END_BOOT_BYTES : Nat := END_BOOT * 2

/-! ## Frame codec

The C source overlays a packed struct (command, uint16 data_length,
two key bytes, four address bytes, 64 data bytes) on a byte buffer of
FRAME_MAX_LEN bytes.  The struct is the `Frame`; `encodeFrame` is the
byte image of the struct (x86 little-endian uint16), `decodeFrame`
reads the fields back from a byte buffer. -/

structure Frame where
  command : Nat
  data_length : Nat
  EE_key_1 : Nat
  EE_key_2 : Nat
  address_L : Nat
  address_H : Nat
  address_U : Nat
  address_unused : Nat
  data : List Nat
deriving Repr, DecidableEq

/-- The fixed opcode table of the bootloader protocol. -/
def opcodeTable : List Nat :=
  [READ_VERSION, READ_FLASH, WRITE_FLASH, ERASE_FLASH, READ_EE_DATA,
   WRITE_EE_DATA, READ_CONFIG, WRITE_CONFIG, CALC_CHECKSUM, RESET_DEVICE, CALC_CRC]

/-- Byte image of a frame: 9 header bytes (opcode, 16-bit little-endian
length, the two key bytes, the split address bytes) followed by the
declared number of payload bytes.  Every byte slot truncates to uint8,
the length field to uint16, as the packed struct does. -/
def encodeFrame (f : Frame) : List Nat :=
  [f.command % 256, f.data_length % 256, f.data_length / 256 % 256,
   f.EE_key_1 % 256, f.EE_key_2 % 256,
   f.address_L % 256, f.address_H % 256, f.address_U % 256, f.address_unused % 256]
  ++ (f.data.map (· % 256)).take f.data_length

/-- Reading the struct fields back from a byte buffer (the other
direction of the union overlay). -/
def decodeFrame (b : List Nat) : Frame :=
  { command := b.getD 0 0
  , data_length := b.getD 1 0 + 256 * b.getD 2 0
  , EE_key_1 := b.getD 3 0
  , EE_key_2 := b.getD 4 0
  , address_L := b.getD 5 0
  , address_H := b.getD 6 0
  , address_U := b.getD 7 0
  , address_unused := b.getD 8 0
  , data := b.drop 9 }

/-- Well-formedness of a frame value: every field fits its machine type
(uint8 fields, uint16 length) and the payload list carries exactly the
declared number of bytes. -/
def Frame.wf (f : Frame) : Prop :=
  f.command < 256 ∧ f.data_length < 65536 ∧ f.EE_key_1 < 256 ∧ f.EE_key_2 < 256 ∧
  f.address_L < 256 ∧ f.address_H < 256 ∧ f.address_U < 256 ∧ f.address_unused < 256 ∧
  f.data.length = f.data_length ∧ ∀ b ∈ f.data, b < 256

/-- Claim C4: the frame codec round-trips: for every opcode in the fixed
opcode table and every payload length in the range [0, 64], decoding the
encoded byte buffer of a well-formed frame yields the original frame. -/
theorem decode_encode_frame (f : Frame)
    (hcmd : f.command ∈ opcodeTable) (hlen : f.data_length ≤ 64) (hwf : f.wf) :
    decodeFrame (encodeFrame f) = f := by
  obtain ⟨h1, h2, h3, h4, h5, h6, h7, h8, h9, h10⟩ := hwf
  have hmap : f.data.map (· % 256) = f.data := by
    calc f.data.map (· % 256) = f.data.map id :=
          List.map_congr_left fun b hb => Nat.mod_eq_of_lt (h10 b hb)
      _ = f.data := List.map_id f.data
  have htake : (f.data.map (· % 256)).take f.data_length = f.data := by
    rw [hmap, ← h9, List.take_length]
  have hdl : f.data_length % 256 + 256 * (f.data_length / 256 % 256) = f.data_length := by
    omega
  simp only [encodeFrame, decodeFrame, htake]
  cases f with
  | mk command data_length k1 k2 aL aH aU aX data =>
    simp only [List.cons_append, List.nil_append]
    congr 1 <;>
      simp_all [List.getD, Nat.mod_eq_of_lt, List.drop]

theorem decode_encode_frame_witness :
    decodeFrame (encodeFrame ⟨CALC_CHECKSUM, 2, 0, 0, 52, 4, 0, 0, [13, 200]⟩) =
      ⟨CALC_CHECKSUM, 2, 0, 0, 52, 4, 0, 0, [13, 200]⟩ :=
  decode_encode_frame ⟨CALC_CHECKSUM, 2, 0, 0, 52, 4, 0, 0, [13, 200]⟩ (by decide) (by decide)
    ⟨by decide, by decide, by decide, by decide, by decide, by decide, by decide, by decide,
     by decide, by decide⟩

/-! ## Byte transport oracle and protocol engine

The byte transport (waitWrite / waitRead over the serial descriptor) is
abstracted as an oracle of outcomes.  waitWrite yields an error (the
source propagates -1 from poll or write), a poll timeout, or the number
of bytes the descriptor accepted.  waitRead yields an error, a poll
timeout, or the list of bytes the device delivered for this call (the
source never reads more than the number of bytes it asked for, hence the
take below; a delivered empty list models read returning 0). -/

inductive WRes where
  | werr : WRes
  | wtimeout : WRes
  | wrote : Nat → WRes
deriving Repr, DecidableEq

inductive RRes where
  | rerr : RRes
  | rtimeout : RRes
  | rgot : List Nat → RRes
deriving Repr, DecidableEq

/-- One oracle per exchange: outcome of the sync-byte write, outcomes of
the successive frame-write calls, outcome of the sync-byte read, and
outcomes of the successive frame-read calls.  The trailing 4-byte drain
is ignored by the source and therefore not modelled. -/
structure Oracle where
  syncW : WRes
  dataW : List WRes
  syncR : RRes
  frameR : List RRes
deriving Repr

/-- The frame-write loop of sendReceiveFrame: accumulate partial writes
until len bytes were sent; a failed or timed-out write aborts with a
negative result (the source returns the negative cnt for an error and
an explicit -1 for a timeout).  Running out of oracle entries stands
for a device that never accepts more bytes, i.e. a timeout. -/
def writeLoop (oracles : List WRes) (pos len : Nat) : Int :=
  if len ≤ pos then 0
  else
    match oracles with
    | [] => -1
    | WRes.werr :: _ => -1
    | WRes.wtimeout :: _ => -1
    | WRes.wrote n :: rest =>
      if min n (len - pos) = 0 then -1
      else writeLoop rest (pos + min n (len - pos)) len

/-- Little-endian uint16 data_length field of a received header. -/
def declaredDataLength (recv : List Nat) : Nat :=
  recv.getD 1 0 + 256 * recv.getD 2 0

/-- The frame-read loop of sendReceiveFrame: read into the buffer until
len bytes arrived; when the 9 header bytes are complete, extend len by
the data_length the header declares (for fix < 0) or by the fixed
expectation of the caller (fix ≥ 0).  Note the source adds the declared
data_length without bounding it by the 64-byte payload capacity of the
frame buffer.  A failed or timed-out read aborts with -1 (likewise when
the oracle runs out). -/
def readLoop (oracles : List RRes) (recv : List Nat) (len : Nat) (fix : Int) : Int × List Nat :=
  if len ≤ recv.length then (0, recv)
  else
    match oracles with
    | [] => (-1, recv)
    | RRes.rerr :: _ => (-1, recv)
    | RRes.rtimeout :: _ => (-1, recv)
    | RRes.rgot bs :: rest =>
      if (bs.map (· % 256)).take (len - recv.length) = [] then (-1, recv)
      else
        if (recv ++ (bs.map (· % 256)).take (len - recv.length)).length = FRAME_HEADER_LEN then
          if fix < 0 then
            readLoop rest (recv ++ (bs.map (· % 256)).take (len - recv.length))
              (FRAME_HEADER_LEN + declaredDataLength (recv ++ (bs.map (· % 256)).take (len - recv.length))) 0
          else
            readLoop rest (recv ++ (bs.map (· % 256)).take (len - recv.length))
              (FRAME_HEADER_LEN + fix.toNat) 0
        else
          readLoop rest (recv ++ (bs.map (· % 256)).take (len - recv.length)) len fix

/-- The response overwrites the frame buffer in place from offset 0; the
bytes beyond what was received keep their previous (request) content. -/
def overlay (recv buf : List Nat) : List Nat := recv ++ buf.drop recv.length

/-- The protocol engine: one request/response exchange over the oracle.
buf0 is the byte image of the request frame (the in-place buffer).
Return value and final buffer content follow the source exactly; in
particular the sync-byte write timeout returns cnt = 0, which is the
same value a fully successful exchange returns. -/
def sendReceiveFrame (oc : Oracle) (buf0 : List Nat) (sendDataLen : Nat) (fix : Int) :
    Int × List Nat :=
  match oc.syncW with
  | WRes.werr => (-1, buf0)
  | WRes.wtimeout => (0, buf0)
  | WRes.wrote n =>
    if n = 0 then (0, buf0)
    else
      if writeLoop oc.dataW 0 (FRAME_HEADER_LEN + sendDataLen) ≠ 0 then
        (writeLoop oc.dataW 0 (FRAME_HEADER_LEN + sendDataLen), buf0)
      else
        match oc.syncR with
        | RRes.rerr => (-1, buf0)
        | RRes.rtimeout => (-1, buf0)
        | RRes.rgot bs =>
          match bs with
          | [] => (-1, buf0)
          | ch :: _ =>
            if ch % 256 ≠ STX then (-1, buf0)
            else
              if (readLoop oc.frameR [] FRAME_HEADER_LEN fix).1 ≠ 0 then
                ((readLoop oc.frameR [] FRAME_HEADER_LEN fix).1,
                 overlay (readLoop oc.frameR [] FRAME_HEADER_LEN fix).2 buf0)
              else
                if (overlay (readLoop oc.frameR [] FRAME_HEADER_LEN fix).2 buf0).getD 0 0
                    ≠ buf0.getD 0 0 then
                  (-1, overlay (readLoop oc.frameR [] FRAME_HEADER_LEN fix).2 buf0)
                else
                  (0, overlay (readLoop oc.frameR [] FRAME_HEADER_LEN fix).2 buf0)

/-- Claim C2 evaluation: when the write of the initial 0x55 sync byte
times out, sendReceiveFrame returns 0 — exactly the value it also
returns on a fully successful exchange, so the two outcomes are not
distinct.  The second conjunct runs a complete successful exchange
(sync accepted, 9 header bytes written, sync 0x55 received, a 9-byte
response echoing the command) and obtains the same value 0. -/
theorem sendReceiveFrame_sync_timeout_eq_success :
    (sendReceiveFrame ⟨WRes.wtimeout, [], RRes.rtimeout, []⟩
        [1, 0, 0, 0, 0, 0, 0, 0, 0] 0 0).1 = 0 ∧
    (sendReceiveFrame ⟨WRes.wrote 1, [WRes.wrote 9], RRes.rgot [0x55],
        [RRes.rgot [1, 0, 0, 0, 0, 0, 0, 0, 0]]⟩
        [1, 0, 0, 0, 0, 0, 0, 0, 0] 0 0).1 = 0 := by
  decide

/-- Claim C3 evaluation: with a header-derived payload length
(fixReceiveDataLen < 0) and a received header declaring
data_length = 100, the engine reads and stores 9 + 100 = 109 bytes into
the frame buffer, exceeding its FRAME_MAX_LEN = 9 + 64 = 73 bytes:
the declared length is not bounded by the 64-byte payload capacity. -/
theorem sendReceiveFrame_unbounded_declared_length :
    (sendReceiveFrame ⟨WRes.wrote 1, [WRes.wrote 9], RRes.rgot [0x55],
        [RRes.rgot [1, 100, 0, 0, 0, 0, 0, 0, 0], RRes.rgot (List.replicate 100 171)]⟩
        [1, 0, 0, 0, 0, 0, 0, 0, 0] 0 (-1)).2.length = 109 ∧
    FRAME_HEADER_LEN + 64 = 73 ∧ 73 < 109 := by
  decide

/-- Claim C5: whenever an exchange proceeds through all phases (sync
byte accepted, frame written, sync 0x55 received, response frame fully
read) but the command field of the received response differs from the
command of the request that was sent, sendReceiveFrame returns the
protocol error -1, regardless of the payload content. -/
theorem sendReceiveFrame_echo_mismatch (n : Nat) (dataW : List WRes) (tail : List Nat)
    (frameR : List RRes) (buf0 : List Nat) (sendDataLen : Nat) (fix : Int)
    (hn : n ≠ 0)
    (hw : writeLoop dataW 0 (FRAME_HEADER_LEN + sendDataLen) = 0)
    (hr : (readLoop frameR [] FRAME_HEADER_LEN fix).1 = 0)
    (hcmd : (overlay (readLoop frameR [] FRAME_HEADER_LEN fix).2 buf0).getD 0 0
      ≠ buf0.getD 0 0) :
    (sendReceiveFrame ⟨WRes.wrote n, dataW, RRes.rgot (STX :: tail), frameR⟩
        buf0 sendDataLen fix).1 = -1 := by
  simp only [sendReceiveFrame]
  rw [if_neg hn, hw]
  rw [if_neg (show ¬((0 : Int) ≠ 0) by simp)]
  rw [if_neg (show ¬(STX % 256 ≠ STX) by decide)]
  rw [hr]
  rw [if_neg (show ¬((0 : Int) ≠ 0) by simp)]
  rw [if_pos hcmd]

theorem sendReceiveFrame_echo_mismatch_witness :
    (sendReceiveFrame ⟨WRes.wrote 1, [WRes.wrote 9], RRes.rgot [STX],
        [RRes.rgot [7, 0, 0, 0, 0, 0, 0, 0, 0]]⟩
        [2, 0, 0, 0, 0, 0, 0, 0, 0] 0 0).1 = -1 :=
  sendReceiveFrame_echo_mismatch 1 [WRes.wrote 9] [] [RRes.rgot [7, 0, 0, 0, 0, 0, 0, 0, 0]]
    [2, 0, 0, 0, 0, 0, 0, 0, 0] 0 0 (by decide) (by decide) (by decide) (by decide)

/-! ## Command set

Each operation zero-initializes a frame buffer of FRAME_MAX_LEN bytes,
fills in the header fields (and the payload for write operations),
invokes the engine, and maps the response to an int result.  The extra
response timeout budgets only affect timing and are not part of the
model; the hideErrors flag only affects stderr printing. -/

/-- The zero-initialized frame buffer with the frame fields written into
it (memset to FRAME_MAX_LEN zero bytes, then the header and payload). -/
def initBuffer (f : Frame) : List Nat :=
  (encodeFrame f ++ List.replicate FRAME_MAX_LEN 0).take FRAME_MAX_LEN

/-- The request frame eraseFlash builds: the data_length field holds the
block count (len + ERASE_FLASH_BLOCKSIZE - 1) / ERASE_FLASH_BLOCKSIZE,
not a byte count, truncated to uint16 by the field assignment. -/
def eraseFrame (address len : Nat) : Frame :=
  { command := ERASE_FLASH
  , data_length := (len + ERASE_FLASH_BLOCKSIZE - 1) / ERASE_FLASH_BLOCKSIZE % 65536
  , EE_key_1 := 0x55
  , EE_key_2 := 0xaa
  , address_L := address % 256
  , address_H := address / 256 % 256
  , address_U := 0
  , address_unused := 0
  , data := [] }

/-- eraseFlash: build the erase frame, run one exchange expecting a
single status byte, and map a non-success status s to -s - 1. -/
def eraseFlash (oc : Oracle) (address len : Nat) : Int :=
  if (sendReceiveFrame oc (initBuffer (eraseFrame address len)) 0 1).1 ≠ 0 then
    (sendReceiveFrame oc (initBuffer (eraseFrame address len)) 0 1).1
  else if (sendReceiveFrame oc (initBuffer (eraseFrame address len)) 0 1).2.getD
      FRAME_HEADER_LEN 0 ≠ COMMAND_SUCCESS then
    -((sendReceiveFrame oc (initBuffer (eraseFrame address len)) 0 1).2.getD
      FRAME_HEADER_LEN 0 : Int) - 1
  else 0

/-- The request frame writeFlash builds. -/
def writeFlashFrame (address len : Nat) (data : List Nat) : Frame :=
  { command := WRITE_FLASH
  , data_length := len % 65536
  , EE_key_1 := 0x55
  , EE_key_2 := 0xaa
  , address_L := address % 256
  , address_H := address / 256 % 256
  , address_U := 0
  , address_unused := 0
  , data := data.map (· % 256) }

/-- writeFlash: one exchange expecting a single status byte; any
non-success status collapses to -1. -/
def writeFlash (oc : Oracle) (address len : Nat) (data : List Nat) : Int :=
  if (sendReceiveFrame oc (initBuffer (writeFlashFrame address len data)) len 1).1 ≠ 0 then
    (sendReceiveFrame oc (initBuffer (writeFlashFrame address len data)) len 1).1
  else if (sendReceiveFrame oc (initBuffer (writeFlashFrame address len data)) len 1).2.getD
      FRAME_HEADER_LEN 0 ≠ COMMAND_SUCCESS then
    -1
  else 0

/-- The request frame writeConfig builds. -/
def writeConfigFrame (address len : Nat) (data : List Nat) : Frame :=
  { command := WRITE_CONFIG
  , data_length := len % 65536
  , EE_key_1 := 0x55
  , EE_key_2 := 0xaa
  , address_L := address % 256
  , address_H := address / 256 % 256
  , address_U := 0
  , address_unused := 0
  , data := data.map (· % 256) }

/-- writeConfig: one exchange expecting a single status byte; any
non-success status collapses to -1. -/
def writeConfig (oc : Oracle) (address len : Nat) (data : List Nat) : Int :=
  if (sendReceiveFrame oc (initBuffer (writeConfigFrame address len data)) len 1).1 ≠ 0 then
    (sendReceiveFrame oc (initBuffer (writeConfigFrame address len data)) len 1).1
  else if (sendReceiveFrame oc (initBuffer (writeConfigFrame address len data)) len 1).2.getD
      FRAME_HEADER_LEN 0 ≠ COMMAND_SUCCESS then
    -1
  else 0

/-- Claim C8: the data_length field of the erase frame is the block
count ceil(len / 32), characterized as the least multiple-of-one bound:
len ≤ 32 * count < len + 32; in particular len = 100 gives count 4. -/
theorem eraseFrame_blockCount (address len : Nat) (hlen : len < 65536) :
    len ≤ ERASE_FLASH_BLOCKSIZE * (eraseFrame address len).data_length ∧
    ERASE_FLASH_BLOCKSIZE * (eraseFrame address len).data_length < len + ERASE_FLASH_BLOCKSIZE ∧
    (eraseFrame address 100).data_length = 4 := by
  refine ⟨?_, ?_, by simp [eraseFrame, ERASE_FLASH_BLOCKSIZE]⟩ <;>
    simp only [eraseFrame, ERASE_FLASH_BLOCKSIZE] <;> omega

theorem eraseFrame_blockCount_witness :
    100 ≤ ERASE_FLASH_BLOCKSIZE * (eraseFrame 0 100).data_length ∧
    ERASE_FLASH_BLOCKSIZE * (eraseFrame 0 100).data_length < 100 + ERASE_FLASH_BLOCKSIZE ∧
    (eraseFrame 0 100).data_length = 4 :=
  eraseFrame_blockCount 0 100 (by decide)

/-- Claim C9: for every erase exchange that completes the round trip
(engine result 0), a non-success status byte s makes eraseFlash return
exactly -s - 1 = -(s + 1), so the caller recovers the device status as
-result - 1, and the success status 0x01 makes it return 0. -/
theorem eraseFlash_status_mapping (oc : Oracle) (address len : Nat) (s : Nat)
    (hdone : (sendReceiveFrame oc (initBuffer (eraseFrame address len)) 0 1).1 = 0)
    (hs : (sendReceiveFrame oc (initBuffer (eraseFrame address len)) 0 1).2.getD
      FRAME_HEADER_LEN 0 = s) :
    (s ≠ COMMAND_SUCCESS →
      eraseFlash oc address len = -(s : Int) - 1 ∧
      -(eraseFlash oc address len) - 1 = (s : Int)) ∧
    (s = COMMAND_SUCCESS → eraseFlash oc address len = 0) := by
  constructor
  · intro hne
    constructor
    · unfold eraseFlash
      rw [hdone, hs, if_neg (show ¬((0 : Int) ≠ 0) by simp), if_pos hne]
    · unfold eraseFlash
      rw [hdone, hs, if_neg (show ¬((0 : Int) ≠ 0) by simp), if_pos hne]
      ring
  · intro heq
    unfold eraseFlash
    rw [hdone, hs, if_neg (show ¬((0 : Int) ≠ 0) by simp),
      if_neg (show ¬(s ≠ COMMAND_SUCCESS) by simp [heq])]

theorem eraseFlash_status_mapping_witness :
    (254 ≠ COMMAND_SUCCESS →
      eraseFlash ⟨WRes.wrote 1, [WRes.wrote 9], RRes.rgot [STX],
        [RRes.rgot [3, 1, 0, 0, 0, 0, 0, 0, 0], RRes.rgot [254]]⟩ 1024 100 = -(254 : Int) - 1 ∧
      -(eraseFlash ⟨WRes.wrote 1, [WRes.wrote 9], RRes.rgot [STX],
        [RRes.rgot [3, 1, 0, 0, 0, 0, 0, 0, 0], RRes.rgot [254]]⟩ 1024 100) - 1 = (254 : Int)) ∧
    (254 = COMMAND_SUCCESS →
      eraseFlash ⟨WRes.wrote 1, [WRes.wrote 9], RRes.rgot [STX],
        [RRes.rgot [3, 1, 0, 0, 0, 0, 0, 0, 0], RRes.rgot [254]]⟩ 1024 100 = 0) :=
  eraseFlash_status_mapping
    ⟨WRes.wrote 1, [WRes.wrote 9], RRes.rgot [STX],
      [RRes.rgot [3, 1, 0, 0, 0, 0, 0, 0, 0], RRes.rgot [254]]⟩ 1024 100 254
    (by decide) (by decide)

/-- Claim C10: unlike eraseFlash, both writeFlash and writeConfig
discard the device status: for every completed exchange whose status
byte is any non-success value, both return exactly -1, so the original
status is not recoverable from the result. -/
theorem write_status_discarded (ocF ocC : Oracle) (aF lF aC lC : Nat) (dF dC : List Nat)
    (sF sC : Nat)
    (hF : (sendReceiveFrame ocF (initBuffer (writeFlashFrame aF lF dF)) lF 1).1 = 0)
    (hsF : (sendReceiveFrame ocF (initBuffer (writeFlashFrame aF lF dF)) lF 1).2.getD
      FRAME_HEADER_LEN 0 = sF)
    (hF1 : sF ≠ COMMAND_SUCCESS)
    (hC : (sendReceiveFrame ocC (initBuffer (writeConfigFrame aC lC dC)) lC 1).1 = 0)
    (hsC : (sendReceiveFrame ocC (initBuffer (writeConfigFrame aC lC dC)) lC 1).2.getD
      FRAME_HEADER_LEN 0 = sC)
    (hC1 : sC ≠ COMMAND_SUCCESS) :
    writeFlash ocF aF lF dF = -1 ∧ writeConfig ocC aC lC dC = -1 := by
  constructor
  · unfold writeFlash
    rw [hF, hsF, if_neg (show ¬((0 : Int) ≠ 0) by simp), if_pos hF1]
  · unfold writeConfig
    rw [hC, hsC, if_neg (show ¬((0 : Int) ≠ 0) by simp), if_pos hC1]

theorem write_status_discarded_witness :
    writeFlash ⟨WRes.wrote 1, [WRes.wrote 11], RRes.rgot [STX],
      [RRes.rgot [2, 1, 0, 0, 0, 0, 0, 0, 0], RRes.rgot [254]]⟩ 1024 2 [9, 9] = -1 ∧
    writeConfig ⟨WRes.wrote 1, [WRes.wrote 17], RRes.rgot [STX],
      [RRes.rgot [7, 1, 0, 0, 0, 0, 0, 0, 0], RRes.rgot [66]]⟩ 0 8
      [255, 63, 255, 63, 255, 63, 255, 63] = -1 :=
  write_status_discarded
    ⟨WRes.wrote 1, [WRes.wrote 11], RRes.rgot [STX],
      [RRes.rgot [2, 1, 0, 0, 0, 0, 0, 0, 0], RRes.rgot [254]]⟩
    ⟨WRes.wrote 1, [WRes.wrote 17], RRes.rgot [STX],
      [RRes.rgot [7, 1, 0, 0, 0, 0, 0, 0, 0], RRes.rgot [66]]⟩
    1024 2 0 8 [9, 9] [255, 63, 255, 63, 255, 63, 255, 63] 254 66
    (by decide) (by decide) (by decide) (by decide) (by decide) (by decide)

/-! ## Programming sequencer (flashPic)

The sparse image cursor is modelled as the list of (address, byte)
pairs still ahead of the cursor, in strictly increasing address order:
currentAddress is the address of the head, getData succeeds exactly
when the list is nonempty, incrementAddress drops the head.  Device
exchanges performed by the sequencer are recorded as a trace of
commands; their outcomes come from oracles (eraseRes for the erase
exchange, wok for the two possible writeFlash attempts per block
start, picSum for the checksum exchange). -/

/-- ih.currentAddress() on the cursor model; a cursor that ran past the
end reports an address beyond the flash so that no image byte matches. -/
def currentAddress : List (Nat × Nat) → Nat
  | [] => END_FLASH_BYTES
  | (a, _) :: _ => a

/-- Pad byte for a position the image does not cover: 0x3f at odd byte
positions, 0xff at even ones. -/
def padValue (pos : Nat) : Nat := if pos % 2 = 1 then 0x3f else 0xff

/-- Result of filling one 32-byte block from the image cursor. -/
structure BlockFill where
  buf : List Nat
  checkSum : Nat
  cursor : List (Nat × Nat)
  blank : Bool
deriving Repr, DecidableEq

/-- The inner for-loop of the block fill: at each of the 32 positions
take the image byte if the cursor sits exactly at nextAddr (clearing
blank), otherwise the pad value; every byte value feeds the running
16-bit checksum accumulator as value << ((pos & 1) * 8), reduced
modulo 2^16 as the uint16_t accumulation does. -/
def fillBlockGo : Nat → Nat → Nat → List (Nat × Nat) → List Nat → Nat → Bool → BlockFill
  | 0, _pos, _addr, cursor, buf, cs, blank => ⟨buf, cs, cursor, blank⟩
  | fuel + 1, pos, addr, cursor, buf, cs, blank =>
    match cursor with
    | (a, v) :: rest =>
      if a = addr then
        fillBlockGo fuel (pos + 1) (addr + 1) rest (buf ++ [v % 256])
          ((cs + v % 256 * 2 ^ (pos % 2 * 8)) % 65536) false
      else
        fillBlockGo fuel (pos + 1) (addr + 1) ((a, v) :: rest) (buf ++ [padValue pos])
          ((cs + padValue pos * 2 ^ (pos % 2 * 8)) % 65536) blank
    | [] =>
      fillBlockGo fuel (pos + 1) (addr + 1) [] (buf ++ [padValue pos])
        ((cs + padValue pos * 2 ^ (pos % 2 * 8)) % 65536) blank

/-- Fill the block that starts at blockStart (nextAddr equals
blockStart + pos throughout the loop, since both advance in lockstep). -/
def fillBlock (cursor : List (Nat × Nat)) (blockStart cs : Nat) : BlockFill :=
  fillBlockGo WRITE_FLASH_BLOCKSIZE 0 blockStart cursor [] cs true

/-- One device exchange the sequencer performs, as recorded in its
trace: an erase over a word range, a block write (address, payload,
whether error reporting was suppressed), or a checksum request. -/
inductive DevCmd where
  | erase : Nat → Nat → DevCmd
  | write : Nat → List Nat → Bool → DevCmd
  | checksum : Nat → Nat → DevCmd
deriving Repr, DecidableEq

/-- Result of the block-programming while-loop: whether it ran to
completion, the accumulated checksum, the trace of write exchanges, and
the final blockStart (the aborting blockStart on failure). -/
structure LoopResult where
  ok : Bool
  checkSum : Nat
  writes : List DevCmd
  lastBlock : Nat
deriving Repr, DecidableEq

/-- Prepend write exchanges to the trace of a loop result. -/
def LoopResult.addWrites (ws : List DevCmd) (r : LoopResult) : LoopResult :=
  { r with writes := ws ++ r.writes }

/-- The while-loop of flashPic over block starts: fill the block; a
blank block (no image byte landed in it) is skipped without any device
exchange; a non-blank block is written with error reporting suppressed
and, if that fails, exactly once more with normal reporting; a second
failure ends the run as failed.  wok blockStart gives the outcomes of
the two possible attempts at that block.  The loop consumes one fuel
per iteration; callers supply at least ceil((endAddr - blockStart)/32)
fuel, which makes the zero-fuel branch with blockStart < endAddr
unreachable. -/
def flashLoopGo : Nat → List (Nat × Nat) → Nat → Nat → Nat → (Nat → Bool × Bool) → LoopResult
  | 0, _cursor, blockStart, endAddr, cs, _wok =>
    if blockStart < endAddr then ⟨false, cs, [], blockStart⟩ else ⟨true, cs, [], blockStart⟩
  | fuel + 1, cursor, blockStart, endAddr, cs, wok =>
    if blockStart < endAddr then
      if (fillBlock cursor blockStart cs).blank then
        flashLoopGo fuel (fillBlock cursor blockStart cs).cursor
          (blockStart + WRITE_FLASH_BLOCKSIZE) endAddr (fillBlock cursor blockStart cs).checkSum wok
      else if (wok blockStart).1 then
        LoopResult.addWrites [DevCmd.write (blockStart / 2) (fillBlock cursor blockStart cs).buf true]
          (flashLoopGo fuel (fillBlock cursor blockStart cs).cursor
            (blockStart + WRITE_FLASH_BLOCKSIZE) endAddr (fillBlock cursor blockStart cs).checkSum wok)
      else if (wok blockStart).2 then
        LoopResult.addWrites
          [DevCmd.write (blockStart / 2) (fillBlock cursor blockStart cs).buf true,
           DevCmd.write (blockStart / 2) (fillBlock cursor blockStart cs).buf false]
          (flashLoopGo fuel (fillBlock cursor blockStart cs).cursor
            (blockStart + WRITE_FLASH_BLOCKSIZE) endAddr (fillBlock cursor blockStart cs).checkSum wok)
      else
        ⟨false, (fillBlock cursor blockStart cs).checkSum,
         [DevCmd.write (blockStart / 2) (fillBlock cursor blockStart cs).buf true,
          DevCmd.write (blockStart / 2) (fillBlock cursor blockStart cs).buf false],
         blockStart⟩
    else ⟨true, cs, [], blockStart⟩

/-- The checksum a host computes over the range by walking the blocks
and accumulating every byte (image or pad): a pure function of the
address range, the pad pattern and the image data, with no notion of
blank blocks or device writes.  This is the same per-block byte fill
and accumulation, with all write/skip bookkeeping removed. -/
def hostChecksumGo : Nat → List (Nat × Nat) → Nat → Nat → Nat → Nat
  | 0, _cursor, _blockStart, _endAddr, cs => cs
  | fuel + 1, cursor, blockStart, endAddr, cs =>
    if blockStart < endAddr then
      hostChecksumGo fuel (fillBlock cursor blockStart cs).cursor
        (blockStart + WRITE_FLASH_BLOCKSIZE) endAddr (fillBlock cursor blockStart cs).checkSum
    else cs

/-- flashPic from the address-range validation on: validate the range,
check the cursor starts exactly at the boot-block end, erase, program
block by block, and verify the device checksum against the host
accumulator.  The result is the success flag and the trace of device
exchanges that were issued. -/
def flashPic (cursor : List (Nat × Nat)) (startAddr endAddr : Nat)
    (eraseRes : Int) (wok : Nat → Bool × Bool) (picSum : Int) : Bool × List DevCmd :=
  if startAddr < END_BOOT_BYTES ∨ END_FLASH_BYTES ≤ endAddr ∨ endAddr < startAddr ∨
      startAddr % 16 ≠ 0 then
    (false, [])
  else if currentAddress cursor ≠ END_BOOT_BYTES then
    (false, [])
  else if eraseRes ≠ 0 then
    (false, [DevCmd.erase (END_BOOT_BYTES / 2) ((endAddr - END_BOOT_BYTES) / 2)])
  else
    let r := flashLoopGo
      ((endAddr - END_BOOT_BYTES + WRITE_FLASH_BLOCKSIZE - 1) / WRITE_FLASH_BLOCKSIZE)
      cursor END_BOOT_BYTES endAddr 0 wok
    let cmds := DevCmd.erase (END_BOOT_BYTES / 2) ((endAddr - END_BOOT_BYTES) / 2) :: r.writes
    if r.ok = false then
      (false, cmds)
    else if picSum < 0 then
      (false, cmds ++ [DevCmd.checksum (startAddr / 2) (r.lastBlock - startAddr)])
    else if picSum ≠ (r.checkSum : Int) then
      (false, cmds ++ [DevCmd.checksum (startAddr / 2) (r.lastBlock - startAddr)])
    else
      (true, cmds ++ [DevCmd.checksum (startAddr / 2) (r.lastBlock - startAddr)])

/-- Claim C6: flashPic rejects as fatal, before issuing any device
command, every image whose byte range has a start below the boot-block
end 0x0800, an end at or above the flash size 0x8000, an end below the
start, or a start that is not 16-byte aligned: the run fails with an
empty exchange trace. -/
theorem flashPic_invalid_range (cursor : List (Nat × Nat)) (startAddr endAddr : Nat)
    (eraseRes : Int) (wok : Nat → Bool × Bool) (picSum : Int)
    (h : startAddr < END_BOOT_BYTES ∨ END_FLASH_BYTES ≤ endAddr ∨ endAddr < startAddr ∨
      startAddr % 16 ≠ 0) :
    flashPic cursor startAddr endAddr eraseRes wok picSum = (false, []) := by
  unfold flashPic
  rw [if_pos h]

theorem flashPic_invalid_range_witness :
    flashPic [] 0 0x7FFE 0 (fun _ => (true, true)) 0 = (false, []) :=
  flashPic_invalid_range [] 0 0x7FFE 0 (fun _ => (true, true)) 0 (by decide)

/-- Claim C1: whenever the programming loop runs to completion, its
final 16-bit checksum accumulator equals hostChecksumGo, a pure
function of the address range, the pad pattern and the image data that
knows nothing about blank-block skipping or device writes — so skipping
a blank block yields exactly the same final checksum as processing it
with pad values, independently of which blocks were physically
written and of the write outcomes wok. -/
theorem flashLoop_checksum_pure (endAddr : Nat) (wok : Nat → Bool × Bool) :
    ∀ (fuel : Nat) (cursor : List (Nat × Nat)) (blockStart cs : Nat),
    (flashLoopGo fuel cursor blockStart endAddr cs wok).ok = true →
    (flashLoopGo fuel cursor blockStart endAddr cs wok).checkSum =
      hostChecksumGo fuel cursor blockStart endAddr cs := by
  intro fuel
  induction fuel with
  | zero =>
    intro cursor bs cs h
    by_cases hbe : bs < endAddr
    · simp [flashLoopGo, hbe] at h
    · simp [flashLoopGo, hostChecksumGo, hbe]
  | succ n ih =>
    intro cursor bs cs h
    by_cases hbe : bs < endAddr
    · simp only [flashLoopGo, hostChecksumGo, if_pos hbe] at h ⊢
      by_cases hblank : (fillBlock cursor bs cs).blank
      · simp only [hblank, if_true] at h ⊢
        exact ih _ _ _ h
      · simp only [hblank, if_false, Bool.false_eq_true] at h ⊢
        by_cases h1 : (wok bs).1
        · simp only [h1, if_true, LoopResult.addWrites] at h ⊢
          exact ih _ _ _ h
        · simp only [h1, if_false, Bool.false_eq_true] at h ⊢
          by_cases h2 : (wok bs).2
          · simp only [h2, if_true, LoopResult.addWrites] at h ⊢
            exact ih _ _ _ h
          · simp [h2] at h
    · simp only [flashLoopGo, hostChecksumGo, if_neg hbe]

theorem flashLoop_checksum_pure_witness :
    (flashLoopGo 1 [(0, 7)] 0 32 0 (fun _ => (true, true))).checkSum =
      hostChecksumGo 1 [(0, 7)] 0 32 0 :=
  flashLoop_checksum_pure 32 (fun _ => (true, true)) 1 [(0, 7)] 0 0 (by decide)

/-- The error-reporting flags of the write exchanges a trace holds for
a given block address, in order of occurrence (true = suppressed). -/
def writeFlagsAt : List DevCmd → Nat → List Bool
  | [], _ => []
  | DevCmd.write a2 _ hide :: rest, a =>
    if a2 = a then hide :: writeFlagsAt rest a else writeFlagsAt rest a
  | DevCmd.erase _ _ :: rest, a => writeFlagsAt rest a
  | DevCmd.checksum _ _ :: rest, a => writeFlagsAt rest a

/-- Every write exchange the loop records targets the word address of a
block at or after the blockStart the loop was entered with. -/
theorem flashLoop_write_addr_lb (endAddr : Nat) (wok : Nat → Bool × Bool) :
    ∀ (fuel : Nat) (cursor : List (Nat × Nat)) (blockStart cs : Nat) (a : Nat)
      (buf : List Nat) (hide : Bool),
    DevCmd.write a buf hide ∈ (flashLoopGo fuel cursor blockStart endAddr cs wok).writes →
    blockStart ≤ 2 * a + 1 := by
  intro fuel
  induction fuel with
  | zero =>
    intro cursor bs cs a buf hide hmem
    by_cases hbe : bs < endAddr <;> simp [flashLoopGo, hbe] at hmem
  | succ n ih =>
    intro cursor bs cs a buf hide hmem
    by_cases hbe : bs < endAddr
    · simp only [flashLoopGo, if_pos hbe] at hmem
      by_cases hblank : (fillBlock cursor bs cs).blank
      · simp only [hblank, if_true] at hmem
        have := ih _ _ _ _ _ _ hmem
        omega
      · by_cases h1 : (wok bs).1
        · simp only [hblank, if_false, Bool.false_eq_true, h1, if_true,
            LoopResult.addWrites, List.singleton_append] at hmem
          rcases List.mem_cons.mp hmem with h | h
          · obtain ⟨rfl, -, -⟩ := DevCmd.write.inj h
            omega
          · have := ih _ _ _ _ _ _ h
            omega
        · by_cases h2 : (wok bs).2
          · simp only [hblank, if_false, Bool.false_eq_true, h1, h2, if_true,
              LoopResult.addWrites, List.cons_append, List.nil_append] at hmem
            rcases List.mem_cons.mp hmem with h | h
            · obtain ⟨rfl, -, -⟩ := DevCmd.write.inj h
              omega
            · rcases List.mem_cons.mp h with h3 | h3
              · obtain ⟨rfl, -, -⟩ := DevCmd.write.inj h3
                omega
              · have := ih _ _ _ _ _ _ h3
                omega
          · simp only [hblank, if_false, Bool.false_eq_true, h1, h2] at hmem
            rcases List.mem_cons.mp hmem with h | h
            · obtain ⟨rfl, -, -⟩ := DevCmd.write.inj h
              omega
            · rcases List.mem_cons.mp h with h3 | h3
              · obtain ⟨rfl, -, -⟩ := DevCmd.write.inj h3
                omega
              · simp at h3
    · simp only [flashLoopGo, if_neg hbe] at hmem
      simp at hmem

/-- A trace whose write addresses all sit at or beyond a bound holds no
write flags for an address strictly below it. -/
theorem writeFlagsAt_eq_nil (t bound : Nat) :
    ∀ ws : List DevCmd,
    (∀ a buf hide, DevCmd.write a buf hide ∈ ws → bound ≤ 2 * a + 1) →
    2 * t + 1 < bound → writeFlagsAt ws t = [] := by
  intro ws
  induction ws with
  | nil => intro _ _; simp [writeFlagsAt]
  | cons c rest ih =>
    intro hlb hlt
    cases c with
    | write a2 buf hide =>
      have ha2 : bound ≤ 2 * a2 + 1 := hlb a2 buf hide (List.mem_cons_self _ _)
      have hne : a2 ≠ t := by omega
      simp only [writeFlagsAt, if_neg hne]
      exact ih (fun a b h hm => hlb a b h (List.mem_cons_of_mem _ hm)) hlt
    | erase x y =>
      simp only [writeFlagsAt]
      exact ih (fun a b h hm => hlb a b h (List.mem_cons_of_mem _ hm)) hlt
    | checksum x y =>
      simp only [writeFlagsAt]
      exact ih (fun a b h hm => hlb a b h (List.mem_cons_of_mem _ hm)) hlt

/-- Claim C7: in a programming run (even blockStart, enough fuel for
the range), the write exchanges obey the retry discipline: every block
address receives zero, one, or two write attempts, a single attempt has
error reporting suppressed, a second attempt is made exactly when the
first (suppressed) one failed and uses normal reporting, and if the run
ends failed then the block it stopped at had both attempts fail and the
trace ends with those two attempts — nothing is retried further and no
earlier write is undone. -/
theorem flashLoop_retry_discipline (endAddr : Nat) (wok : Nat → Bool × Bool) :
    ∀ (fuel : Nat) (cursor : List (Nat × Nat)) (blockStart cs : Nat) (r : LoopResult),
    blockStart % 2 = 0 →
    endAddr ≤ blockStart + WRITE_FLASH_BLOCKSIZE * fuel →
    flashLoopGo fuel cursor blockStart endAddr cs wok = r →
    (∀ a, writeFlagsAt r.writes a = [] ∨ writeFlagsAt r.writes a = [true] ∨
      writeFlagsAt r.writes a = [true, false]) ∧
    (∀ a, writeFlagsAt r.writes a = [true] → (wok (2 * a)).1 = true) ∧
    (∀ a, writeFlagsAt r.writes a = [true, false] → (wok (2 * a)).1 = false) ∧
    (r.ok = false →
      wok r.lastBlock = (false, false) ∧
      ∃ pre buf, r.writes = pre ++
        [DevCmd.write (r.lastBlock / 2) buf true,
         DevCmd.write (r.lastBlock / 2) buf false]) := by
  intro fuel
  induction fuel with
  | zero =>
    intro cursor bs cs r hbs hfuel hr
    simp only [WRITE_FLASH_BLOCKSIZE] at hfuel
    have hbe : ¬ bs < endAddr := by omega
    simp only [flashLoopGo, if_neg hbe] at hr
    subst hr
    refine ⟨fun a => Or.inl (by simp [writeFlagsAt]), fun a h => ?_, fun a h => ?_, fun h => ?_⟩
    · simp [writeFlagsAt] at h
    · simp [writeFlagsAt] at h
    · simp at h
  | succ n ih =>
    intro cursor bs cs r hbs hfuel hr
    simp only [WRITE_FLASH_BLOCKSIZE] at hfuel
    by_cases hbe : bs < endAddr
    · simp only [flashLoopGo, if_pos hbe] at hr
      by_cases hblank : (fillBlock cursor bs cs).blank
      · simp only [hblank, if_true] at hr
        exact ih _ _ _ _ (by simp only [WRITE_FLASH_BLOCKSIZE]; omega)
          (by simp only [WRITE_FLASH_BLOCKSIZE]; omega) hr
      · have hnil : writeFlagsAt
            (flashLoopGo n (fillBlock cursor bs cs).cursor (bs + WRITE_FLASH_BLOCKSIZE)
              endAddr (fillBlock cursor bs cs).checkSum wok).writes (bs / 2) = [] :=
          writeFlagsAt_eq_nil (bs / 2) (bs + WRITE_FLASH_BLOCKSIZE) _
            (fun a buf hide hm =>
              flashLoop_write_addr_lb endAddr wok n _ _ _ a buf hide hm)
            (by simp only [WRITE_FLASH_BLOCKSIZE]; omega)
        obtain ⟨ih1, ih2, ih3, ih4⟩ := ih (fillBlock cursor bs cs).cursor
          (bs + WRITE_FLASH_BLOCKSIZE) (fillBlock cursor bs cs).checkSum _
          (by simp only [WRITE_FLASH_BLOCKSIZE]; omega)
          (by simp only [WRITE_FLASH_BLOCKSIZE]; omega) rfl
        have hbs2 : 2 * (bs / 2) = bs := by omega
        by_cases h1 : (wok bs).1
        · simp only [hblank, if_false, Bool.false_eq_true, h1, if_true,
            LoopResult.addWrites, List.singleton_append] at hr
          subst hr
          refine ⟨fun a => ?_, fun a h => ?_, fun a h => ?_, fun h => ?_⟩
          · by_cases hat : bs / 2 = a
            · subst hat
              exact Or.inr (Or.inl (by simp [writeFlagsAt, hnil]))
            · simp only [writeFlagsAt, if_neg hat]
              exact ih1 a
          · by_cases hat : bs / 2 = a
            · subst hat
              rw [hbs2]
              exact h1
            · simp only [writeFlagsAt, if_neg hat] at h
              exact ih2 a h
          · by_cases hat : bs / 2 = a
            · subst hat
              simp only [writeFlagsAt, if_pos rfl, hnil] at h
              simp at h
            · simp only [writeFlagsAt, if_neg hat] at h
              exact ih3 a h
          · simp only at h
            obtain ⟨hwok, pre, buf, hshape⟩ := ih4 h
            refine ⟨hwok, DevCmd.write (bs / 2) (fillBlock cursor bs cs).buf true :: pre,
              buf, ?_⟩
            simp only [List.cons_append, hshape]
        · by_cases h2 : (wok bs).2
          · simp only [hblank, if_false, Bool.false_eq_true, h1, h2, if_true,
              LoopResult.addWrites, List.cons_append, List.nil_append] at hr
            subst hr
            refine ⟨fun a => ?_, fun a h => ?_, fun a h => ?_, fun h => ?_⟩
            · by_cases hat : bs / 2 = a
              · subst hat
                exact Or.inr (Or.inr (by simp [writeFlagsAt, hnil]))
              · simp only [writeFlagsAt, if_neg hat]
                exact ih1 a
            · by_cases hat : bs / 2 = a
              · subst hat
                simp only [writeFlagsAt, if_pos rfl, hnil] at h
                simp at h
              · simp only [writeFlagsAt, if_neg hat] at h
                exact ih2 a h
            · by_cases hat : bs / 2 = a
              · subst hat
                rw [hbs2]
                simpa using h1
              · simp only [writeFlagsAt, if_neg hat] at h
                exact ih3 a h
            · simp only at h
              obtain ⟨hwok, pre, buf, hshape⟩ := ih4 h
              refine ⟨hwok,
                DevCmd.write (bs / 2) (fillBlock cursor bs cs).buf true ::
                  DevCmd.write (bs / 2) (fillBlock cursor bs cs).buf false :: pre,
                buf, ?_⟩
              simp only [List.cons_append, hshape]
          · simp only [hblank, if_false, Bool.false_eq_true, h1, h2] at hr
            subst hr
            have e1 : (wok bs).1 = false := by simpa using h1
            have e2 : (wok bs).2 = false := by simpa using h2
            refine ⟨fun a => ?_, fun a h => ?_, fun a h => ?_, fun h => ?_⟩
            · by_cases hat : bs / 2 = a
              · subst hat
                exact Or.inr (Or.inr (by simp [writeFlagsAt]))
              · exact Or.inl (by simp only [writeFlagsAt, if_neg hat])
            · by_cases hat : bs / 2 = a
              · subst hat
                simp only [writeFlagsAt, if_pos rfl] at h
                simp at h
              · simp only [writeFlagsAt, if_neg hat] at h
                simp [writeFlagsAt] at h
            · by_cases hat : bs / 2 = a
              · subst hat
                rw [hbs2]
                exact e1
              · simp only [writeFlagsAt, if_neg hat] at h
                simp [writeFlagsAt] at h
            · refine ⟨?_, [], (fillBlock cursor bs cs).buf, ?_⟩
              · have hpair : wok bs = ((wok bs).1, (wok bs).2) := rfl
                rw [hpair, e1, e2]
              · simp
    · simp only [flashLoopGo, if_neg hbe] at hr
      subst hr
      refine ⟨fun a => Or.inl (by simp [writeFlagsAt]), fun a h => ?_, fun a h => ?_,
        fun h => ?_⟩
      · simp [writeFlagsAt] at h
      · simp [writeFlagsAt] at h
      · simp at h

theorem flashLoop_retry_discipline_witness :
    (∀ a, writeFlagsAt (flashLoopGo 1 [(0, 7)] 0 32 0 (fun _x => (false, false))).writes a = [] ∨
      writeFlagsAt (flashLoopGo 1 [(0, 7)] 0 32 0 (fun _x => (false, false))).writes a = [true] ∨
      writeFlagsAt (flashLoopGo 1 [(0, 7)] 0 32 0 (fun _x => (false, false))).writes a =
        [true, false]) ∧
    (∀ a, writeFlagsAt (flashLoopGo 1 [(0, 7)] 0 32 0 (fun _x => (false, false))).writes a =
      [true] → ((fun _x => ((false : Bool), (false : Bool))) (2 * a)).1 = true) ∧
    (∀ a, writeFlagsAt (flashLoopGo 1 [(0, 7)] 0 32 0 (fun _x => (false, false))).writes a =
      [true, false] → ((fun _x => ((false : Bool), (false : Bool))) (2 * a)).1 = false) ∧
    ((flashLoopGo 1 [(0, 7)] 0 32 0 (fun _x => (false, false))).ok = false →
      (fun _x => ((false : Bool), (false : Bool)))
        ((flashLoopGo 1 [(0, 7)] 0 32 0 (fun _x => (false, false))).lastBlock) =
        (false, false) ∧
      ∃ pre buf, (flashLoopGo 1 [(0, 7)] 0 32 0 (fun _x => (false, false))).writes = pre ++
        [DevCmd.write ((flashLoopGo 1 [(0, 7)] 0 32 0 (fun _x => (false, false))).lastBlock / 2)
          buf true,
         DevCmd.write ((flashLoopGo 1 [(0, 7)] 0 32 0 (fun _x => (false, false))).lastBlock / 2)
          buf false]) :=
  flashLoop_retry_discipline 32 (fun _x => (false, false)) 1 [(0, 7)] 0 0
    (flashLoopGo 1 [(0, 7)] 0 32 0 (fun _x => (false, false)))
    (by decide) (by decide) rfl
